import Mathlib

/-!
Verification of the nymyaOS autonomous build-repair loop.

Shallow embedding of the relevant parts of the repository sources
(`nymya_agent.py`, `federation_agent.py`, `nymya-core/autofix.py`,
`nymya-core/man/fix_man.py`, `nymya-core/nymya_man_and_build_autofix.py`).

Conventions:
- Python strings are `List Char` (abbreviated `Str`), so byte-identity of
  contents is list equality.
- The filesystem is a map `Str → Option Str` from a path to the content of
  the file at that path (`none` = file absent).
- Python exceptions are the `Except PyExn` monad; a function that may raise
  returns `Except PyExn _`, one that catches everything is total.
-/

/-- Python string type: a list of characters. -/
abbrev Str := List Char

/-- The Python exceptions that the modelled code can raise or catch. -/
inductive PyExn where
  | fileNotFound
  | permissionError
  | calledProcessError
deriving DecidableEq

/-! ### String primitives shared by the embeddings

`isPre s l` is Python's `l.startswith(s)`, `containsSub sub l` is Python's
`sub in l`, `splitFirst sep l` locates the first occurrence of `sep` in `l`
(returning the parts before and after it), which is what indexing into
`l.split(sep)` needs. `lstripSet`/`rstripSet` are Python's
`str.lstrip(chars)`/`str.rstrip(chars)` (which strip a character SET, not a
suffix — this faithfulness matters below), and `stripWs` is `str.strip()`. -/

def isPre (s l : Str) : Bool :=
  match s, l with
  | [], _ => true
  | _ :: _, [] => false
  | a :: s1, b :: l1 => a == b && isPre s1 l1

def containsSub (sub : Str) : Str → Bool
  | [] => isPre sub []
  | c :: cs => isPre sub (c :: cs) || containsSub sub cs

def splitFirst (sep : Str) : Str → Option (Str × Str)
  | [] => none
  | c :: cs =>
    if isPre sep (c :: cs) then some ([], (c :: cs).drop sep.length)
    else
      match splitFirst sep cs with
      | some (pre, post) => some (c :: pre, post)
      | none => none

def isPySpace (c : Char) : Bool :=
  c == ' ' || c == '\t' || c == '\n' || c == '\r' || c == Char.ofNat 11 || c == Char.ofNat 12

def lstripWs (l : Str) : Str := l.dropWhile isPySpace

def rstripWs (l : Str) : Str := (l.reverse.dropWhile isPySpace).reverse

def stripWs (l : Str) : Str := rstripWs (lstripWs l)

def lstripSet (l : Str) (chars : Str) : Str := l.dropWhile (fun c => chars.contains c)

def rstripSet (l : Str) (chars : Str) : Str :=
  (l.reverse.dropWhile (fun c => chars.contains c)).reverse

/-- Pointwise update of a filesystem map. -/
def setFile (fs : Str → Option Str) (p : Str) (v : Option Str) : Str → Option Str :=
  fun q => if q = p then v else fs q

theorem isPre_trans {a b l : Str} (hab : isPre a b = true) (hbl : isPre b l = true) :
    isPre a l = true := by
  induction a generalizing b l with
  | nil => rfl
  | cons x xs ih =>
    cases b with
    | nil => simp [isPre] at hab
    | cons y ys =>
      cases l with
      | nil => simp [isPre] at hbl
      | cons z zs =>
        simp only [isPre, Bool.and_eq_true, beq_iff_eq] at hab hbl ⊢
        exact ⟨hab.1.trans hbl.1, ih hab.2 hbl.2⟩

theorem containsSub_of_isPre {sub l : Str} (h : isPre sub l = true) :
    containsSub sub l = true := by
  cases l with
  | nil => exact h
  | cons c cs => simp [containsSub, h]

theorem isPre_of_splitFirst {sep l : Str} {pre post : Str}
    (h : splitFirst sep l = some (pre, post)) :
    ∃ tail : Str, isPre sep tail = true ∧ containsSub sep l = true := by
  induction l generalizing pre post with
  | nil => simp [splitFirst] at h
  | cons c cs ih =>
    by_cases hp : isPre sep (c :: cs) = true
    · exact ⟨c :: cs, hp, containsSub_of_isPre hp⟩
    · simp only [splitFirst, hp, Bool.false_eq_true, if_false] at h
      cases hs : splitFirst sep cs with
      | none => rw [hs] at h; simp at h
      | some p =>
        obtain ⟨pre1, post1⟩ := p
        obtain ⟨t, ht, hc⟩ := ih hs
        refine ⟨t, ht, ?_⟩
        simp [containsSub, hc]

theorem splitFirst_eq_none_of_not_contains {sep l : Str}
    (h : containsSub sep l = false) : splitFirst sep l = none := by
  cases hs : splitFirst sep l with
  | none => rfl
  | some p =>
    obtain ⟨pre, post⟩ := p
    obtain ⟨_, _, hc⟩ := isPre_of_splitFirst hs
    rw [hc] at h
    simp at h

theorem containsSub_of_contains_extension {p s l : Str}
    (hpre : isPre p s = true) (h : containsSub s l = true) : containsSub p l = true := by
  induction l with
  | nil =>
    simp only [containsSub] at h ⊢
    exact isPre_trans hpre h
  | cons c cs ih =>
    simp only [containsSub, Bool.or_eq_true] at h ⊢
    cases h with
    | inl h1 => exact Or.inl (isPre_trans hpre h1)
    | inr h2 => exact Or.inr (ih h2)

theorem isPre_append_self (s t : Str) : isPre s (s ++ t) = true := by
  induction s with
  | nil => rfl
  | cons a s1 ih => simp [isPre, ih]

theorem containsSub_append_left {sub l : Str} (x : Str) (h : containsSub sub l = true) :
    containsSub sub (x ++ l) = true := by
  induction x with
  | nil => exact h
  | cons c cs ih => simp [containsSub, ih]

theorem isPre_append_right {s l : Str} (t : Str) (h : isPre s l = true) :
    isPre s (l ++ t) = true := by
  induction s generalizing l with
  | nil => rfl
  | cons a s1 ih =>
    cases l with
    | nil => simp [isPre] at h
    | cons b l1 =>
      simp only [isPre, Bool.and_eq_true] at h ⊢
      exact ⟨h.1, ih h.2⟩

theorem containsSub_append_right {sub l : Str} (t : Str) (h : containsSub sub l = true) :
    containsSub sub (l ++ t) = true := by
  induction l with
  | nil =>
    simp only [containsSub] at h
    exact containsSub_of_isPre (isPre_append_right t h)
  | cons c cs ih =>
    simp only [containsSub, Bool.or_eq_true] at h ⊢
    cases h with
    | inl h1 => exact Or.inl (isPre_append_right t h1)
    | inr h2 => exact Or.inr (ih h2)

/-! ## nymya_agent.py -/

namespace NymyaAgent

/-- The module-level mutable state of `nymya_agent.py` that the claims are
about: the working filesystem, and the globals `change_log` (list of backup
paths), `error_history` (per-target window of recent failure messages) and
`skip_files` (the SkipList). -/
structure AgentState where
  fs : Str → Option Str
  changeLog : List Str
  errHist : Str → List Str
  skip : List Str

/-- `f"{file_path}.bak"`, the backup path used by `apply_change`,
`rollback_changes_for_file` and `handle_error_loop`. -/
def bak (file_path : Str) : Str := file_path ++ ".bak".toList

/-- Pointwise update of the error-history map. -/
def setHist (h : Str → List Str) (p : Str) (v : List Str) : Str → List Str :=
  fun q => if q = p then v else h q

/-- `apply_change(file_path, new_content)`: `shutil.copy(file_path, backup_path)`
(raises FileNotFoundError when the source file is absent), then
`write_file(file_path, new_content)`, then `change_log.append(backup_path)`. -/
def apply_change (st : AgentState) (file_path new_content : Str) :
    Except PyExn AgentState :=
  match st.fs file_path with
  | none => .error .fileNotFound
  | some orig =>
    .ok { st with
            fs := setFile (setFile st.fs (bak file_path) (some orig)) file_path
                    (some new_content),
            changeLog := st.changeLog ++ [bak file_path] }

/-- `rollback_changes_for_file(file_path)`: if the `.bak` file exists, copy it
back over `file_path` and delete it; otherwise do nothing.  (The `change_log`
global is not modified by this function in the source.) -/
def rollback_changes_for_file (st : AgentState) (file_path : Str) : AgentState :=
  match st.fs (bak file_path) with
  | some c =>
    { st with fs := setFile (setFile st.fs file_path (some c)) (bak file_path) none }
  | none => st

/-- The character set of the Python literal `'.bak'`, as consumed by
`str.rstrip`. -/
def bakChars : Str := ".bak".toList

/-- One step of the loop body of `rollback_changes()`:
`original_path = backup.rstrip('.bak')`, `shutil.copy(backup, original_path)`
(raises if the backup file is absent), `os.remove(backup)`.  Note that
`rstrip('.bak')` strips the trailing character SET `{'.','b','a','k'}`, not
the suffix `".bak"`. -/
def restore_backup (fs : Str → Option Str) (backup : Str) :
    Except PyExn (Str → Option Str) :=
  match fs backup with
  | none => .error .fileNotFound
  | some c => .ok (setFile (setFile fs (rstripSet backup bakChars) (some c)) backup none)

/-- `rollback_changes()`: restore every backup recorded in `change_log`, then
`change_log.clear()`. -/
def rollback_changes (st : AgentState) : Except PyExn AgentState := do
  let fs2 ← st.changeLog.foldlM restore_backup st.fs
  .ok { st with fs := fs2, changeLog := [] }

/-- Appending to a `collections.deque(maxlen=cap)`: the oldest entry is
evicted once the window is full. -/
def dequeAppend (cap : Nat) (l : List Str) (x : Str) : List Str :=
  let l2 := l ++ [x]
  l2.drop (l2.length - cap)

/-- `record_error(file_path, error_msg)`: append to the target's sliding
window `error_history[file_path]`, which is a `deque(maxlen=5)`. -/
def record_error (h : Str → List Str) (file_path error_msg : Str) : Str → List Str :=
  setHist h file_path (dequeAppend 5 (h file_path) error_msg)

/-- `record_error` applied `k` times with the same message for one target. -/
def recordSameN (h : Str → List Str) (file_path error_msg : Str) : Nat → (Str → List Str)
  | 0 => h
  | Nat.succ k => record_error (recordSameN h file_path error_msg k) file_path error_msg

/-- `is_error_loop(file_path)`: `errors = list(error_history[file_path])`;
`len(errors) == 5 and len(set(errors)) == 1`.  The cardinality of the Python
set of a list is the length of the deduplicated list. -/
def is_error_loop (h : Str → List Str) (file_path : Str) : Bool :=
  (h file_path).length == 5 && (h file_path).dedup.length == 1

end NymyaAgent

namespace NymyaAgent

theorem dedup_replicate {α : Type} [DecidableEq α] (a : α) :
    ∀ n : Nat, 0 < n → (List.replicate n a).dedup = [a] := by
  intro n
  induction n with
  | zero => intro hc; exact absurd hc (by simp)
  | succ m ih =>
    intro _
    cases Nat.eq_zero_or_pos m with
    | inl h0 => subst h0; simp
    | inr hpos =>
      rw [List.replicate_succ, List.dedup_cons_of_mem
            (List.mem_replicate.mpr ⟨Nat.pos_iff_ne_zero.mp hpos, rfl⟩)]
      exact ih hpos

theorem dedup_length_one_iff {α : Type} [DecidableEq α] {l : List α} (hne : l ≠ []) :
    l.dedup.length = 1 ↔ ∀ x ∈ l, ∀ y ∈ l, x = y := by
  constructor
  · intro h1 x hx y hy
    obtain ⟨a, ha⟩ := List.length_eq_one.mp h1
    have hxa : x = a := by
      have hx2 := List.mem_dedup.mpr hx
      rw [ha] at hx2
      simpa using hx2
    have hya : y = a := by
      have hy2 := List.mem_dedup.mpr hy
      rw [ha] at hy2
      simpa using hy2
    rw [hxa, hya]
  · intro hall
    obtain ⟨a, hal⟩ := List.exists_mem_of_ne_nil l hne
    have hpos : 0 < l.length := List.length_pos.mpr hne
    have hrep : l = List.replicate l.length a :=
      List.eq_replicate_iff.mpr ⟨rfl, fun b hb => hall b hb a hal⟩
    conv_lhs => rw [hrep]
    rw [dedup_replicate a l.length hpos]
    rfl

theorem recordSameN_window (h : Str → List Str) (p s : Str) :
    ∀ k : Nat, h p = [] → k ≤ 5 → recordSameN h p s k p = List.replicate k s := by
  intro k
  induction k with
  | zero => intro h0 _; simpa [recordSameN]
  | succ m ih =>
    intro h0 hle
    have hm := ih h0 (Nat.le_of_succ_le hle)
    simp only [recordSameN, record_error, setHist, if_pos rfl]
    rw [hm]
    simp only [dequeAppend, ← List.replicate_succ']
    rw [List.length_replicate, Nat.sub_eq_zero_of_le hle, List.drop_zero]
    simp

end NymyaAgent

/-- C1: the loop guard `is_error_loop` declares oscillation exactly when the
target's sliding window (a `deque(maxlen=5)`) is full and all five entries are
equal; recording one signature 5 times in a row from an empty history triggers
it exactly on the 5th record and not earlier; and any full window with 4
identical entries plus 1 different one yields no oscillation. -/
theorem c1_oscillation_threshold :
    (∀ (h : Str → List Str) (p : Str),
        NymyaAgent.is_error_loop h p = true ↔
          ((h p).length = 5 ∧ ∀ x ∈ h p, ∀ y ∈ h p, x = y)) ∧
    (∀ (h : Str → List Str) (p s : Str) (k : Nat), h p = [] → k ≤ 5 →
        NymyaAgent.is_error_loop (NymyaAgent.recordSameN h p s k) p = decide (k = 5)) ∧
    (∀ (h : Str → List Str) (p s t : Str), s ≠ t → (h p).length = 5 →
        (h p).count s = 4 → (h p).count t = 1 →
        NymyaAgent.is_error_loop h p = false) := by
  have hA : ∀ (h : Str → List Str) (p : Str),
      NymyaAgent.is_error_loop h p = true ↔
        ((h p).length = 5 ∧ ∀ x ∈ h p, ∀ y ∈ h p, x = y) := by
    intro h p
    simp only [NymyaAgent.is_error_loop, Bool.and_eq_true, beq_iff_eq]
    have hne : (h p).length = 5 → h p ≠ [] := by
      intro h5 hnil
      rw [hnil] at h5
      simp at h5
    constructor
    · rintro ⟨h5, h1⟩
      exact ⟨h5, (NymyaAgent.dedup_length_one_iff (hne h5)).mp h1⟩
    · rintro ⟨h5, hall⟩
      exact ⟨h5, (NymyaAgent.dedup_length_one_iff (hne h5)).mpr hall⟩
  refine ⟨hA, ?_, ?_⟩
  · intro h p s k h0 hle
    simp only [NymyaAgent.is_error_loop,
      NymyaAgent.recordSameN_window h p s k h0 hle]
    by_cases hk : k = 5
    · subst hk
      simp [NymyaAgent.dedup_replicate s 5 (by norm_num)]
    · simp [List.length_replicate, hk]
  · intro h p s t hst h5 hcs hct
    cases hb : NymyaAgent.is_error_loop h p with
    | false => rfl
    | true =>
      obtain ⟨_, hall⟩ := (hA h p).mp hb
      have hs : s ∈ h p := List.count_pos_iff.mp (by omega)
      have ht : t ∈ h p := List.count_pos_iff.mp (by omega)
      exact absurd (hall s hs t ht) hst

/-- Concrete signatures and history used to instantiate `c1_oscillation_threshold`. -/
def NymyaAgent.sigA : Str := "e1".toList

def NymyaAgent.sigB : Str := "e2".toList

def NymyaAgent.histW : Str → List Str :=
  fun q => if q = "target.c".toList
           then [NymyaAgent.sigA, NymyaAgent.sigA, NymyaAgent.sigA, NymyaAgent.sigA,
                 NymyaAgent.sigB]
           else []

/-- Witness for C1: a concrete window of 4 identical + 1 different signatures
yields no oscillation. -/
theorem c1_oscillation_threshold_witness :
    NymyaAgent.is_error_loop NymyaAgent.histW ("target.c".toList) = false :=
  c1_oscillation_threshold.2.2 NymyaAgent.histW ("target.c".toList)
    NymyaAgent.sigA NymyaAgent.sigB (by decide) (by decide) (by decide) (by decide)

namespace NymyaAgent

/-- Extract the state from a successful `Except` computation, with a default
for the error case (used only to name intermediate concrete states). -/
def okOrElse (d : AgentState) : Except PyExn AgentState → AgentState
  | .ok s => s
  | .error _ => d

/-- Concrete failing input for the bulk-rollback claim: a file named `data`
(a name ending in one of the characters of `'.bak'`). -/
def pData : Str := "data".toList

def cOld : Str := "OLD".toList

def cNew : Str := "NEW".toList

def c2st0 : AgentState :=
  { fs := fun q => if q = pData then some cOld else none,
    changeLog := [], errHist := fun _ => [], skip := [] }

/-- The state after `apply_change("data", "NEW")`. -/
def c2st1 : AgentState := okOrElse c2st0 (apply_change c2st0 pData cNew)

/-- The state after the bulk `rollback_changes()`. -/
def c2bulk : AgentState := okOrElse c2st0 (rollback_changes c2st1)

/-- The state after the per-path `rollback_changes_for_file("data")`. -/
def c2per : AgentState := rollback_changes_for_file c2st1 pData

end NymyaAgent

/-- C2: evaluation of the rollback code at the failing input `data`.  The
per-path rollback restores `data` to its pre-apply content `OLD` and removes
the backup, as the claim states; but the bulk `rollback_changes()` computes
the original path with `backup.rstrip('.bak')`, which strips the trailing
character set, so it writes the old content to the wrong path `dat` and
leaves `data` holding the new content — refuting the claim's
restoration-to-the-original-path property for the bulk rollback. -/
theorem c2_rollback_restoration :
    NymyaAgent.c2per.fs NymyaAgent.pData = some NymyaAgent.cOld ∧
    NymyaAgent.c2per.fs (NymyaAgent.bak NymyaAgent.pData) = none ∧
    (NymyaAgent.rollback_changes_for_file NymyaAgent.c2per NymyaAgent.pData).fs
        NymyaAgent.pData = some NymyaAgent.cOld ∧
    NymyaAgent.c2bulk.fs NymyaAgent.pData = some NymyaAgent.cNew ∧
    NymyaAgent.c2bulk.fs ("dat".toList) = some NymyaAgent.cOld ∧
    NymyaAgent.c2bulk.fs NymyaAgent.pData ≠ some NymyaAgent.cOld := by
  decide

namespace NymyaAgent

/-- The result dictionary returned by `run_command`: `success`, the optional
`stdout`/`stderr` keys, plus a flag recording whether `subprocess.run` (the
underlying shell) was actually invoked. -/
structure RunResult where
  success : Bool
  stdout : Option Str
  stderr : Option Str
  shellInvoked : Bool

/-- `'Command blocked: dangerous operation'`. -/
def blockedMsg : Str := "Command blocked: dangerous operation".toList

/-- The guard of `run_command`: `"rm " in command or "rm-" in command`. -/
def dangerous_command (command : Str) : Bool :=
  containsSub ("rm ".toList) command || containsSub ("rm-".toList) command

/-- `run_command(command)`: refuse dangerous commands without touching the
shell; otherwise run the command through the shell (modelled by the `shell`
oracle giving exit success and captured output) and report the outcome. -/
def run_command (shell : Str → Bool × Str × Str) (command : Str) : RunResult :=
  if dangerous_command command then
    { success := false, stdout := none, stderr := some blockedMsg, shellInvoked := false }
  else
    match shell command with
    | (ok, sout, serr) =>
      { success := ok, stdout := some sout, stderr := some serr, shellInvoked := true }

/-- The composed shell command of `git_commit`:
`f'git add -A && git commit -m "{message}"'`. -/
def git_commit_cmd (message : Str) : Str :=
  "git add -A && git commit -m \"".toList ++ (message ++ "\"".toList)

/-- `git_commit(message)`. -/
def git_commit (shell : Str → Bool × Str × Str) (message : Str) : RunResult :=
  run_command shell (git_commit_cmd message)

end NymyaAgent

/-- C10: every command string containing the substring `"rm "` is refused by
`run_command` — the result is a failure whose `stderr` is
`'Command blocked: dangerous operation'` and the shell is never invoked — and
the same guard blocks `git_commit` whenever the commit message contains that
substring (the message is interpolated into the composed shell command). -/
theorem c10_rm_guard :
    (∀ (shell : Str → Bool × Str × Str) (command : Str),
        containsSub ("rm ".toList) command = true →
        NymyaAgent.run_command shell command =
          { success := false, stdout := none, stderr := some NymyaAgent.blockedMsg,
            shellInvoked := false }) ∧
    (∀ (shell : Str → Bool × Str × Str) (message : Str),
        containsSub ("rm ".toList) message = true →
        NymyaAgent.git_commit shell message =
          { success := false, stdout := none, stderr := some NymyaAgent.blockedMsg,
            shellInvoked := false }) := by
  have hrun : ∀ (shell : Str → Bool × Str × Str) (command : Str),
      containsSub ("rm ".toList) command = true →
      NymyaAgent.run_command shell command =
        { success := false, stdout := none, stderr := some NymyaAgent.blockedMsg,
          shellInvoked := false } := by
    intro shell command hc
    have hd : NymyaAgent.dangerous_command command = true := by
      unfold NymyaAgent.dangerous_command
      rw [hc, Bool.true_or]
    simp [NymyaAgent.run_command, hd]
  refine ⟨hrun, ?_⟩
  intro shell message hc
  have hcmd : containsSub ("rm ".toList) (NymyaAgent.git_commit_cmd message) = true := by
    unfold NymyaAgent.git_commit_cmd
    exact containsSub_append_left _ (containsSub_append_right _ hc)
  exact hrun shell _ hcmd

/-- A trivial shell oracle used by the C10 witness. -/
def NymyaAgent.shellW : Str → Bool × Str × Str := fun _ => (true, [], [])

/-- Witness for C10: a concrete dangerous command and a concrete commit
message containing `"rm "` are both blocked. -/
theorem c10_rm_guard_witness :
    NymyaAgent.run_command NymyaAgent.shellW ("echo hi && rm -rf build".toList) =
      { success := false, stdout := none, stderr := some NymyaAgent.blockedMsg,
        shellInvoked := false } ∧
    NymyaAgent.git_commit NymyaAgent.shellW ("cleanup: rm old artifacts".toList) =
      { success := false, stdout := none, stderr := some NymyaAgent.blockedMsg,
        shellInvoked := false } :=
  ⟨c10_rm_guard.1 NymyaAgent.shellW _ (by decide),
   c10_rm_guard.2 NymyaAgent.shellW _ (by decide)⟩

namespace NymyaAgent

/-- One attempt of `generate_code`'s retry loop: `none` models
`requests.Timeout` / `requests.RequestException` on the `i`-th POST to the
backend, `some r` models a 2xx response whose parsed body yields `r`
(`data.get("response", "")`). -/
def generate_code_go (responses : Nat → Option Str) : Nat → Nat → Nat × Str
  | attemptsMade, 0 => (attemptsMade, [])
  | attemptsMade, Nat.succ n =>
    match responses attemptsMade with
    | some r => (attemptsMade + 1, r)
    | none => generate_code_go responses (attemptsMade + 1) n

/-- `generate_code(prompt, retries=3)`: `for attempt in range(retries)` try the
backend once per iteration; return the parsed response on success; after the
budget is exhausted return `""`.  The returned pair is (number of POST
attempts actually made, result string). -/
def generate_code (responses : Nat → Option Str) (retries : Nat) : Nat × Str :=
  generate_code_go responses 0 retries

/-- The distinguished failure value of `generate_code`: the empty string,
which every caller treats as "no suggestion from the backend"
(`if not suggestion: continue`). -/
def BackendUnavailable : Str := []

end NymyaAgent

/-- C6: with the configured retry budget of 3, if every backend request
errors, `generate_code` makes exactly 3 attempts — not 2, not 4 — and then
fails with the distinguished `BackendUnavailable` result (the function
mutates no other state: it is pure but for the returned value). -/
theorem c6_retry_budget (responses : Nat → Option Str)
    (hfail : ∀ i, responses i = none) :
    NymyaAgent.generate_code responses 3 = (3, NymyaAgent.BackendUnavailable) := by
  simp [NymyaAgent.generate_code, NymyaAgent.generate_code_go, hfail,
        NymyaAgent.BackendUnavailable]

/-- Witness for C6: the always-failing backend. -/
theorem c6_retry_budget_witness :
    NymyaAgent.generate_code (fun _ => none) 3 = (3, NymyaAgent.BackendUnavailable) :=
  c6_retry_budget (fun _ => none) (fun _ => rfl)

namespace NymyaAgent

/-- `handle_error_loop(file_path)`: roll back the file's pending backup and
add the target to `skip_files`. -/
def handle_error_loop (st : AgentState) (file_path : Str) : AgentState :=
  let st2 := rollback_changes_for_file st file_path
  { st2 with skip := st2.skip ++ [file_path] }

/-- The external inputs consumed while processing one chunk of a file in
`autonomous_edit_loop`: the backend's suggestion for the chunk (empty = no
suggestion, chunk skipped), the combined stderr+log tail observed after
running the file (empty = no error), and the parsed `edit_files` list of the
backend's error-analysis JSON (`none` = `json.JSONDecodeError`). -/
structure ChunkOracle where
  suggestion : Str
  logOutput : Str
  actions : Option (List (Str × Str))

/-- Observable events of the loop: the targets for which a fix proposal was
requested from the backend, and the paths written by `apply_change`. -/
structure Events where
  proposals : List Str
  edits : List Str
deriving DecidableEq

def noEvents : Events := { proposals := [], edits := [] }

/-- The `for edit in actions.get("edit_files", [])` loop:
`if e_path and changes: apply_change(e_path, changes)`. -/
def applyEdits (st : AgentState) (ev : Events) :
    List (Str × Str) → Except PyExn (AgentState × Events)
  | [] => .ok (st, ev)
  | (e_path, changes) :: rest =>
    if e_path.isEmpty || changes.isEmpty then applyEdits st ev rest
    else
      match apply_change st e_path changes with
      | .error e => .error e
      | .ok st2 => applyEdits st2 { ev with edits := ev.edits ++ [e_path] } rest

/-- The body of the per-chunk loop of `autonomous_edit_loop`: request a
suggestion, apply it, run the file, and on error record the failure, apply
the backend's follow-up edits and consult the loop guard. -/
def processChunk (st : AgentState) (ev : Events) (path : Str) (co : ChunkOracle) :
    Except PyExn (AgentState × Events) :=
  let ev1 := { ev with proposals := ev.proposals ++ [path] }
  if co.suggestion.isEmpty then .ok (st, ev1)
  else
    match apply_change st path co.suggestion with
    | .error e => .error e
    | .ok st1 =>
      let ev2 := { ev1 with edits := ev1.edits ++ [path] }
      if co.logOutput.isEmpty then .ok (st1, ev2)
      else
        let st2 := { st1 with errHist := record_error st1.errHist path co.logOutput }
        match co.actions with
        | none => .ok (st2, ev2)
        | some es =>
          match applyEdits st2 ev2 es with
          | .error e => .error e
          | .ok (st3, ev3) =>
            if is_error_loop st3.errHist path then .ok (handle_error_loop st3 path, ev3)
            else .ok (st3, ev3)

def processChunks (st : AgentState) (ev : Events) (path : Str) :
    List ChunkOracle → Except PyExn (AgentState × Events)
  | [] => .ok (st, ev)
  | co :: rest =>
    match processChunk st ev path co with
    | .error e => .error e
    | .ok (st1, ev1) => processChunks st1 ev1 path rest

/-- Processing one file of the scan: `if path in skip_files: continue`,
otherwise run the chunk loop. -/
def processFile (st : AgentState) (path : Str) (chunks : List ChunkOracle) :
    Except PyExn (AgentState × Events) :=
  if path ∈ st.skip then .ok (st, noEvents)
  else processChunks st noEvents path chunks

/-- One pass of the outer `while True` loop over the scanned project files. -/
def processPass (st : AgentState) :
    List (Str × List ChunkOracle) → Except PyExn AgentState
  | [] => .ok st
  | (path, chunks) :: rest =>
    match processFile st path chunks with
    | .error e => .error e
    | .ok (st1, _) => processPass st1 rest

theorem apply_change_skip {st st2 : AgentState} {p c : Str}
    (h : apply_change st p c = .ok st2) : st2.skip = st.skip := by
  unfold apply_change at h
  cases hfs : st.fs p with
  | none => rw [hfs] at h; simp at h
  | some orig =>
    rw [hfs] at h
    injection h with h1
    rw [← h1]

theorem rollback_changes_for_file_skip (st : AgentState) (p : Str) :
    (rollback_changes_for_file st p).skip = st.skip := by
  unfold rollback_changes_for_file
  cases st.fs (bak p) <;> rfl

theorem applyEdits_skip {es : List (Str × Str)} :
    ∀ {st ev st2 ev2}, applyEdits st ev es = .ok (st2, ev2) → st2.skip = st.skip := by
  induction es with
  | nil =>
    intro st ev st2 ev2 h
    injection h with h1
    injection h1 with h2 h3
    rw [← h2]
  | cons pc rest ih =>
    intro st ev st2 ev2 h
    obtain ⟨e_path, changes⟩ := pc
    unfold applyEdits at h
    split at h
    · exact ih h
    · cases hac : apply_change st e_path changes with
      | error e => rw [hac] at h; simp at h
      | ok st1 =>
        rw [hac] at h
        rw [ih h, apply_change_skip hac]

theorem skipSub_of_eq {s t : List Str} (h : t = s) : s ⊆ t := by
  intro a ha
  rw [h]
  exact ha

theorem processChunk_skip_mono {st ev path co st2 ev2}
    (h : processChunk st ev path co = .ok (st2, ev2)) : st.skip ⊆ st2.skip := by
  unfold processChunk at h
  split at h
  · simp only [Except.ok.injEq, Prod.mk.injEq] at h
    exact skipSub_of_eq (by rw [← h.1])
  · split at h
    · exact Except.noConfusion h
    · rename_i st1 hac
      have hskip1 : st1.skip = st.skip := apply_change_skip hac
      split at h
      · simp only [Except.ok.injEq, Prod.mk.injEq] at h
        exact skipSub_of_eq (by rw [← h.1]; exact hskip1)
      · split at h
        · simp only [Except.ok.injEq, Prod.mk.injEq] at h
          exact skipSub_of_eq (by rw [← h.1]; exact hskip1)
        · rename_i es hact
          simp only [] at h
          split at h
          · exact Except.noConfusion h
          · rename_i st3 ev3 hae
            have hskip3 : st3.skip = st.skip := by
              rw [applyEdits_skip hae]
              exact hskip1
            split at h
            · simp only [Except.ok.injEq, Prod.mk.injEq] at h
              intro a ha
              rw [← h.1]
              show a ∈ (rollback_changes_for_file st3 path).skip ++ [path]
              rw [rollback_changes_for_file_skip]
              exact List.mem_append_left _ (hskip3.symm ▸ ha)
            · simp only [Except.ok.injEq, Prod.mk.injEq] at h
              exact skipSub_of_eq (by rw [← h.1]; exact hskip3)

theorem processChunks_skip_mono {chunks : List ChunkOracle} :
    ∀ {st ev path st2 ev2}, processChunks st ev path chunks = .ok (st2, ev2) →
      st.skip ⊆ st2.skip := by
  induction chunks with
  | nil =>
    intro st ev path st2 ev2 h
    injection h with h1
    injection h1 with h2 h3
    exact skipSub_of_eq (congrArg AgentState.skip h2).symm
  | cons co rest ih =>
    intro st ev path st2 ev2 h
    unfold processChunks at h
    cases hc : processChunk st ev path co with
    | error e => rw [hc] at h; simp at h
    | ok p =>
      obtain ⟨st1, ev1⟩ := p
      rw [hc] at h
      exact (processChunk_skip_mono hc).trans (ih h)

theorem processFile_skip_mono {st path chunks st2 ev2}
    (h : processFile st path chunks = .ok (st2, ev2)) : st.skip ⊆ st2.skip := by
  unfold processFile at h
  split at h
  · injection h with h1
    injection h1 with h2 h3
    exact skipSub_of_eq (congrArg AgentState.skip h2).symm
  · exact processChunks_skip_mono h

theorem processPass_skip_mono {files : List (Str × List ChunkOracle)} :
    ∀ {st st2}, processPass st files = .ok st2 → st.skip ⊆ st2.skip := by
  induction files with
  | nil =>
    intro st st2 h
    injection h with h1
    exact skipSub_of_eq (congrArg AgentState.skip h1).symm
  | cons f rest ih =>
    intro st st2 h
    obtain ⟨path, chunks⟩ := f
    unfold processPass at h
    cases hf : processFile st path chunks with
    | error e => rw [hf] at h; simp at h
    | ok p =>
      obtain ⟨st1, ev1⟩ := p
      rw [hf] at h
      exact (processFile_skip_mono hf).trans (ih h)

end NymyaAgent

namespace NymyaAgent

/-- The `if path in skip_files: continue` guard at the head of the per-file
loop: a skipped path is not processed at all. -/
theorem processFile_skipped {st : AgentState} {path : Str} (chunks : List ChunkOracle)
    (h : path ∈ st.skip) : processFile st path chunks = .ok (st, noEvents) := by
  unfold processFile
  rw [if_pos h]

/-- A path already in `skip_files`, and a second file whose error-analysis
actions direct an edit at that skipped path. -/
def pSkipped : Str := "a.txt".toList

def pOther : Str := "b.txt".toList

def c8st : AgentState :=
  { fs := fun q => if q = pSkipped then some "old".toList
           else if q = pOther then some "code".toList else none,
    changeLog := [], errHist := fun _ => [], skip := [pSkipped] }

def c8chunks : List ChunkOracle :=
  [{ suggestion := "fix".toList, logOutput := "boom".toList,
     actions := some [(pSkipped, "inject".toList)] }]

/-- Projection used to state the concrete counterexample. -/
def editsOf : Except PyExn (AgentState × Events) → List Str
  | .ok (_, ev) => ev.edits
  | .error _ => []

end NymyaAgent

/-- C8 counterexample: while `b.txt` (not skipped) is being processed, the
backend's error-analysis `edit_files` list names `a.txt`, which is already in
`skip_files`; `apply_change` is invoked on it without consulting the skip
list, so an edit IS applied to a skipped target in a later iteration —
refuting the claim that no edit is ever applied to a skipped path. -/
theorem c8_skiplist_counterexample :
    NymyaAgent.pSkipped ∈ NymyaAgent.c8st.skip ∧
    NymyaAgent.pSkipped ∈
      NymyaAgent.editsOf
        (NymyaAgent.processFile NymyaAgent.c8st NymyaAgent.pOther NymyaAgent.c8chunks) := by
  decide

/-- C8 (amended): within a run the skip list only grows — every successful
pass of the edit loop preserves existing members — and a path already in
`skip_files` is skipped as a target: processing it performs no proposal
request and no edit, and leaves the state unchanged. -/
theorem c8_skiplist_monotone :
    (∀ (st : NymyaAgent.AgentState) (files : List (Str × List NymyaAgent.ChunkOracle))
        (st2 : NymyaAgent.AgentState),
        NymyaAgent.processPass st files = .ok st2 → st.skip ⊆ st2.skip) ∧
    (∀ (st : NymyaAgent.AgentState) (path : Str) (chunks : List NymyaAgent.ChunkOracle),
        path ∈ st.skip →
        NymyaAgent.processFile st path chunks = .ok (st, NymyaAgent.noEvents)) :=
  ⟨fun _ _ _ h => NymyaAgent.processPass_skip_mono h,
   fun _ _ chunks h => NymyaAgent.processFile_skipped chunks h⟩

/-- Witness for C8: the skipped path of the concrete state is left untouched
when selected as the target. -/
theorem c8_skiplist_monotone_witness :
    NymyaAgent.processFile NymyaAgent.c8st NymyaAgent.pSkipped NymyaAgent.c8chunks =
      .ok (NymyaAgent.c8st, NymyaAgent.noEvents) :=
  c8_skiplist_monotone.2 NymyaAgent.c8st NymyaAgent.pSkipped NymyaAgent.c8chunks (by decide)

/-! ## nymya-core/autofix.py -/

namespace Autofix

/-- Outcome of `subprocess.run(BUILD_COMMAND, ...)`: a normal exit with a
code and the captured streams, or a failure to even start the command. -/
inductive BuildOutcome where
  | exited (code : Int) (stdout stderr : Str)
  | missingExecutable
  | permissionDenied

/-- `"Build command not found."`, the distinguished startup-failure output. -/
def STARTUP_ERROR_MSG : Str := "Build command not found.".toList

/-- `run_build()`: never raises for a non-zero exit (returns `(False, out+err)`),
catches `FileNotFoundError` (missing executable) and returns the distinguished
message; a `PermissionError` is NOT caught by the `except FileNotFoundError`
clause and propagates. -/
def run_build : BuildOutcome → Except PyExn (Bool × Str)
  | .exited code stdout stderr =>
    if code = 0 then .ok (true, stdout) else .ok (false, stdout ++ stderr)
  | .missingExecutable => .ok (false, STARTUP_ERROR_MSG)
  | .permissionDenied => .error .permissionError

/-- `FILES_TO_CHECK`, in priority order. -/
def FILES_TO_CHECK : List Str :=
  ["Makefile".toList, "build.sh".toList, "Dockerfile.x86_64".toList,
   "Dockerfile.arm64".toList]

/-- The `for file_name in FILES_TO_CHECK: if os.path.exists(file_name)` scan
selecting `error_file_to_fix`. -/
def firstExisting (fs : Str → Option Str) : List Str → Option Str
  | [] => none
  | f :: rest => if (fs f).isSome then some f else firstExisting fs rest

/-- `error_file_to_fix.split('.')[-1]`: the segment after the last dot. -/
def lastSeg (f : Str) : Str := (f.reverse.takeWhile (fun c => c != '.')).reverse

/-- `error_file_to_fix.split('.')[-1] if '.' in error_file_to_fix else 'bash'
if error_file_to_fix == 'build.sh' else 'makefile'`. -/
def code_lang (f : Str) : Str :=
  if '.' ∈ f then lastSeg f
  else if f = "build.sh".toList then "bash".toList
  else "makefile".toList

/-- Three backticks. -/
def bt3 : Str := "```".toList

/-- The opening fence `f'```{code_lang}'`. -/
def fenceFor (lang : Str) : Str := bt3 ++ lang

/-- `fixed_code_md.split(f'```{code_lang}')[1].strip().split('```')[0].strip()`:
`split(sep)[1]` exists iff `sep` occurs (otherwise `IndexError`), and is the
text between the first and second occurrence (or the remainder when `sep`
occurs once); then strip, cut at the next triple backtick, strip again. -/
def pyExtract (fixed_code_md lang : Str) : Option Str :=
  match splitFirst (fenceFor lang) fixed_code_md with
  | none => none
  | some (_, rest) =>
    let seg :=
      match splitFirst (fenceFor lang) rest with
      | none => rest
      | some (pre, _) => pre
    let seg2 := stripWs seg
    let code :=
      match splitFirst bt3 seg2 with
      | none => seg2
      | some (pre, _) => pre
    some (stripWs code)

/-- The repository state seen by `autofix.py`'s main loop: the working tree,
the committed tree at the branch head, and the list of commit messages. -/
structure AutofixState where
  worktree : Str → Option Str
  headTree : Str → Option Str
  commits : List Str

/-- Observable events of one iteration of the main loop: whether
`call_gemini_api` was invoked, the paths written, and the `git commit`
invocations attempted. -/
structure StepTrace where
  proposerCalled : Bool
  writes : List Str
  commitAttempts : List Str
deriving DecidableEq

/-- How the iteration ended: break out of the loop (success / nothing to fix /
no API response / user declined), continue with the next build, propagate an
uncaught exception from `run_build`, or die in `sys.exit(1)` because
`run_git_command` (with `fail_on_error=True`) saw `git commit` fail. -/
inductive LoopDecision where
  | breakSuccess
  | breakNoFile
  | breakNoApi
  | breakDeclined
  | continueLoop
  | raisedUncaught
  | exitedNonzero
deriving DecidableEq

/-- `f"autofix: Corrected build error in {error_file_to_fix}"`. -/
def commitMsg (f : Str) : Str :=
  "autofix: Corrected build error in ".toList ++ f

/-- One iteration of `autofix.py`'s `while True` loop, driven by the build
outcome and the Gemini response (`none` = `call_gemini_api` returned `None`).
On an applied fix the file is written and `git add`/`git commit` are run with
`fail_on_error=True`; committing a tree identical to the head fails
(`nothing to commit`, non-zero exit), which makes `run_git_command` call
`sys.exit(1)`. -/
def autofix_iteration (st : AutofixState) (bo : BuildOutcome) (api : Option Str)
    (yes_to_all : Bool) : AutofixState × StepTrace × LoopDecision :=
  match run_build bo with
  | .error _ => (st, ⟨false, [], []⟩, .raisedUncaught)
  | .ok (isSuccess, _log) =>
    if isSuccess then (st, ⟨false, [], []⟩, .breakSuccess)
    else
      match firstExisting st.worktree FILES_TO_CHECK with
      | none => (st, ⟨false, [], []⟩, .breakNoFile)
      | some f =>
        -- the prompt (containing _log) is built and call_gemini_api is invoked
        match api with
        | none => (st, ⟨true, [], []⟩, .breakNoApi)
        | some md =>
          match pyExtract md (code_lang f) with
          | none => (st, ⟨true, [], []⟩, .continueLoop)
          | some code =>
            if yes_to_all then
              let wt := setFile st.worktree f (some code)
              if wt f = st.headTree f then
                ({ st with worktree := wt }, ⟨true, [f], [commitMsg f]⟩, .exitedNonzero)
              else
                ({ worktree := wt, headTree := setFile st.headTree f (some code),
                   commits := st.commits ++ [commitMsg f] },
                 ⟨true, [f], [commitMsg f]⟩, .continueLoop)
            else (st, ⟨true, [], []⟩, .breakDeclined)

end Autofix

/-- If the proposal text contains no triple-backtick fence at all, the
`split(f'```{lang}')[1]` indexing has nothing to find. -/
theorem pyExtract_none_of_no_fence {md : Str} (lang : Str)
    (h : containsSub Autofix.bt3 md = false) : Autofix.pyExtract md lang = none := by
  have hf : containsSub (Autofix.fenceFor lang) md = false := by
    cases hc : containsSub (Autofix.fenceFor lang) md
    · rfl
    · have hb := containsSub_of_contains_extension
        (isPre_append_self Autofix.bt3 lang) hc
      rw [hb] at h
      exact absurd h (by simp)
  unfold Autofix.pyExtract
  rw [splitFirst_eq_none_of_not_contains hf]

/-- C4: a proposal with zero fenced code blocks (no triple-backtick fence
occurs in the text) makes the apply step of `autofix.py` fail in parsing
(`IndexError`, printed as a parse failure): no file is written, no commit is
attempted, the state is unchanged, and the loop continues to the next
iteration. -/
theorem c4_parse_error_no_touch (st : Autofix.AutofixState) (stdout stderr md : Str)
    (yes_to_all : Bool) (f : Str)
    (hfile : Autofix.firstExisting st.worktree Autofix.FILES_TO_CHECK = some f)
    (hnofence : containsSub Autofix.bt3 md = false) :
    Autofix.autofix_iteration st (.exited 1 stdout stderr) (some md) yes_to_all =
      (st, ⟨true, [], []⟩, .continueLoop) := by
  have h1 : Autofix.run_build (.exited 1 stdout stderr) = .ok (false, stdout ++ stderr) := by
    unfold Autofix.run_build
    norm_num
  simp only [Autofix.autofix_iteration, h1, hfile,
    pyExtract_none_of_no_fence (Autofix.code_lang f) hnofence]
  simp

/-- Concrete state for the C4 witness: only a `Makefile` exists. -/
def Autofix.c4st : Autofix.AutofixState :=
  { worktree := fun q => if q = "Makefile".toList then some "all:".toList else none,
    headTree := fun _ => none, commits := [] }

/-- Witness for C4: a fence-free proposal leaves the concrete state untouched
and the loop continues. -/
theorem c4_parse_error_no_touch_witness :
    Autofix.autofix_iteration Autofix.c4st (.exited 1 "boom".toList [])
        (some "no code blocks here".toList) true =
      (Autofix.c4st, ⟨true, [], []⟩, .continueLoop) :=
  c4_parse_error_no_touch Autofix.c4st ("boom".toList) [] ("no code blocks here".toList)
    true ("Makefile".toList) (by decide) (by decide)

/-- Concrete state for the C3 counterexample: the current `build.sh` content
is also the committed head content. -/
def Autofix.c3orig : Str := "ABC".toList

def Autofix.c3md : Str := "```sh\nABC\n```".toList

def Autofix.c3st : Autofix.AutofixState :=
  { worktree := fun q => if q = "build.sh".toList then some Autofix.c3orig else none,
    headTree := fun q => if q = "build.sh".toList then some Autofix.c3orig else none,
    commits := [] }

/-- C3 counterexample: in `autofix.py`, when the content extracted from the
proposal is byte-identical to the current file content, apply is NOT a no-op:
the file is written anyway and a commit is attempted (`writes = [build.sh]`,
one commit attempt), after which `git commit` finds nothing to commit and
`run_git_command` terminates the script via `sys.exit(1)` — refuting the
claim that for every target file identical content produces no write and no
commit. -/
theorem c3_noop_counterexample :
    Autofix.pyExtract Autofix.c3md (Autofix.code_lang ("build.sh".toList)) =
        some Autofix.c3orig ∧
    (Autofix.autofix_iteration Autofix.c3st (.exited 1 "err: x".toList [])
        (some Autofix.c3md) true).2.1 =
      ⟨true, ["build.sh".toList], [Autofix.commitMsg ("build.sh".toList)]⟩ ∧
    (Autofix.autofix_iteration Autofix.c3st (.exited 1 "err: x".toList [])
        (some Autofix.c3md) true).2.2 = .exitedNonzero := by
  decide

/-- C5 counterexample, at concrete inputs: (a) with only a `Makefile` present,
the startup failure returned by `run_build` for a missing executable flows
into the ordinary fix pipeline — the fix proposer IS called on it — and (b)
for a permission error `run_build` raises instead of returning a
distinguished failure.  Both refute the claim. -/
theorem c5_startup_error_counterexample :
    (Autofix.autofix_iteration Autofix.c4st .missingExecutable
        (some "x".toList) true).2.1.proposerCalled = true ∧
    Autofix.run_build .permissionDenied = .error .permissionError := by
  exact ⟨by decide, rfl⟩

/-- C5 (amended): `run_build` returns the distinguished failure
`(False, "Build command not found.")` without raising only for a missing
executable (a permission error propagates as an uncaught exception), and the
orchestrator does not special-case that failure: whenever some file from
`FILES_TO_CHECK` exists, the iteration forwards the startup failure to the
fix proposer like any other build failure. -/
theorem c5_startup_error_routed_to_proposer (st : Autofix.AutofixState)
    (api : Option Str) (yes_to_all : Bool) (f : Str)
    (hfile : Autofix.firstExisting st.worktree Autofix.FILES_TO_CHECK = some f) :
    Autofix.run_build .missingExecutable = .ok (false, Autofix.STARTUP_ERROR_MSG) ∧
    (Autofix.autofix_iteration st .missingExecutable api
        yes_to_all).2.1.proposerCalled = true := by
  refine ⟨rfl, ?_⟩
  have hrb : Autofix.run_build .missingExecutable =
      .ok (false, Autofix.STARTUP_ERROR_MSG) := rfl
  simp only [Autofix.autofix_iteration, hrb, hfile, Bool.false_eq_true, if_false]
  cases api with
  | none => rfl
  | some md =>
    cases hpe : Autofix.pyExtract md (Autofix.code_lang f) with
    | none => simp [hpe]
    | some code =>
      simp only [hpe]
      cases yes_to_all with
      | false => rfl
      | true =>
        simp only [if_true]
        split
        · rfl
        · rfl

/-- Witness for C5's amended theorem: the concrete Makefile-only state. -/
theorem c5_startup_error_routed_to_proposer_witness :
    Autofix.run_build .missingExecutable = .ok (false, Autofix.STARTUP_ERROR_MSG) ∧
    (Autofix.autofix_iteration Autofix.c4st .missingExecutable
        (some "fix".toList) true).2.1.proposerCalled = true :=
  c5_startup_error_routed_to_proposer Autofix.c4st (some "fix".toList) true
    ("Makefile".toList) (by decide)

/-! ## nymya-core/man/fix_man.py -/

namespace FixMan

/-- `sanitize_model_output(raw_out)`: if the output starts with a
` ```groff ` fence, `raw_out.strip().lstrip('```groff').rstrip('```').strip()`
(character-set strips); otherwise the raw output unchanged. -/
def sanitize_model_output (raw_out : Str) : Str :=
  if isPre ("```groff".toList) raw_out then
    stripWs (rstripSet (lstripSet (stripWs raw_out) ("```groff".toList)) ("```".toList))
  else raw_out

def TARGET_DATE : Str := "2025-08-19".toList

/-- `replace_th_date(polished, target_date)`: the source placeholder returns
`polished` unchanged. -/
def replace_th_date (polished : Str) (target_date : Str) : Str := polished

/-- `replace_see_also(polished, formatted_see_also)`: the source placeholder
returns `polished` unchanged. -/
def replace_see_also (polished : Str) (formatted_see_also : Str) : Str := polished

/-- State touched by `rewrite_and_commit`: the filesystem of man pages and the
git commit list. -/
structure FMState where
  fs : Str → Option Str
  commits : List Str

/-- `f"Rewrite {os.path.basename(filepath)} with Gemini 2.5 Flash"` (the path
stands in for its basename here). -/
def commitMsgFM (filepath : Str) : Str :=
  "Rewrite ".toList ++ (filepath ++ " with Gemini 2.5 Flash".toList)

/-- `rewrite_and_commit(filepath, model, endpoint)`: read the file (`None` →
return False), call the API (`apiResult = none` models the raised exception →
log and return False), post-process the output, and — only when the polished
text differs from the original — back up (`backup_file` is `pass` in the
source), write, `git add` + `git commit` (a commit failure is caught and
reported as False with the file already written, modelled by `commitOk`). -/
def rewrite_and_commit (st : FMState) (filepath : Str) (apiResult : Option Str)
    (commitOk : Bool) : FMState × Bool :=
  match st.fs filepath with
  | none => (st, false)
  | some original =>
    match apiResult with
    | none => (st, false)
    | some raw_out =>
      let polished := replace_see_also (replace_th_date (sanitize_model_output raw_out)
        TARGET_DATE) []
      if polished = original then (st, false)
      else
        let st2 : FMState := { st with fs := setFile st.fs filepath (some polished) }
        if commitOk then ({ st2 with commits := st2.commits ++ [commitMsgFM filepath] }, true)
        else (st2, false)

end FixMan

/-- C3 (amended): the man-page rewriter `rewrite_and_commit` DOES implement
no-op suppression — when the post-processed proposal content is byte-identical
to the file's current content it returns `False` without writing the file,
creating a backup, or committing — while `autofix.py` (see the
counterexample) writes identical content anyway and attempts the commit. -/
theorem c3_noop_suppression (st : FixMan.FMState) (filepath raw_out orig : Str)
    (commitOk : Bool)
    (hfs : st.fs filepath = some orig)
    (heq : FixMan.sanitize_model_output raw_out = orig) :
    FixMan.rewrite_and_commit st filepath (some raw_out) commitOk = (st, false) := by
  simp only [FixMan.rewrite_and_commit, hfs, FixMan.replace_th_date,
    FixMan.replace_see_also, heq, if_pos]

/-- Concrete state for the C3 witness. -/
def FixMan.c3wst : FixMan.FMState :=
  { fs := fun q => if q = "x.1".toList then some "MAN".toList else none, commits := [] }

/-- Witness for C3's amended theorem: identical content at a concrete man
page is a no-op. -/
theorem c3_noop_suppression_witness :
    FixMan.rewrite_and_commit FixMan.c3wst ("x.1".toList) (some "MAN".toList) true =
      (FixMan.c3wst, false) :=
  c3_noop_suppression FixMan.c3wst ("x.1".toList) ("MAN".toList) ("MAN".toList) true
    (by decide) (by decide)

/-! ## nymya-core/nymya_man_and_build_autofix.py -/

namespace ManBuild

/-- Repository state for `git_commit_all`: the committed tree at the branch
head, the working tree (both as abstract whole-tree snapshots, since
`git add -A` stages everything), and the list of commit messages. -/
structure Repo where
  worktree : Str
  headTree : Str
  commits : List Str
deriving DecidableEq

/-- `git_commit_all(repo, message)`: `git add -A` (check=True, always exits 0)
followed by `git commit -m message` (check=True).  Git backend semantics:
committing when the staged tree equals the head tree exits non-zero
("nothing to commit"), and `subprocess.run(..., check=True)` then raises
`CalledProcessError`; otherwise a new commit is created. -/
def git_commit_all (repo : Repo) (message : Str) : Except PyExn Repo :=
  if repo.worktree = repo.headTree then .error .calledProcessError
  else .ok { repo with headTree := repo.worktree,
                       commits := repo.commits ++ [message] }

/-- Concrete repositories for the C9 counterexample and witness. -/
def c9repo : Repo := { worktree := "tree".toList, headTree := "tree".toList, commits := [] }

def c9repo2 : Repo := { worktree := "t2".toList, headTree := "t2".toList,
                        commits := ["earlier".toList] }

end ManBuild

/-- C9 counterexample: committing an empty change set through
`git_commit_all` (working tree identical to the head tree, so `git add -A`
stages nothing) raises `CalledProcessError` via `check=True` instead of
completing without error — at this concrete repository the call errors,
refuting the claimed no-op. -/
theorem c9_empty_commit_counterexample :
    ManBuild.git_commit_all ManBuild.c9repo ("msg".toList) =
      .error .calledProcessError := by
  rfl

/-- C9 (amended): committing an empty change set creates no new commit, but
`git_commit_all` raises (`git commit` exits non-zero with nothing to commit
and `check=True` turns that into `CalledProcessError`) rather than completing
without error; only `rewrite_and_commit`'s equal-content guard avoids the
failing commit. -/
theorem c9_empty_commit_raises (repo : ManBuild.Repo) (message : Str)
    (hempty : repo.worktree = repo.headTree) :
    ManBuild.git_commit_all repo message = .error .calledProcessError := by
  simp [ManBuild.git_commit_all, hempty]

/-- Witness for C9's amended theorem at a second concrete repository. -/
theorem c9_empty_commit_raises_witness :
    ManBuild.git_commit_all ManBuild.c9repo2 ("another".toList) =
      .error .calledProcessError :=
  c9_empty_commit_raises ManBuild.c9repo2 ("another".toList) (by decide)

/-! ## federation_agent.py -/

namespace FedAgent

/-- `build_out.lower()`. -/
def lowerStr (l : Str) : Str := l.map Char.toLower

/-- The success test of step 3 of `agent_loop`:
`"error" not in build_out.lower() and "fatal" not in build_out.lower()`. -/
def build_succeeded (build_out : Str) : Bool :=
  !containsSub ("error".toList) (lowerStr build_out) &&
  !containsSub ("fatal".toList) (lowerStr build_out)

/-- The `while iteration < max_retries` loop of `agent_loop`, with the build
outputs of the successive iterations supplied by `outputs` (iteration numbers
start at 1, as in the source).  Returns the final value of `iteration` and
whether the loop broke out on a successful build. -/
def agent_loop_go (outputs : Nat → Str) : Nat → Nat → Nat × Bool
  | iteration, 0 => (iteration, false)
  | iteration, Nat.succ fuel =>
    let it := iteration + 1
    if build_succeeded (outputs it) then (it, true)
    else agent_loop_go outputs it fuel

/-- The final value of `iteration` after `agent_loop(task, dir, max_retries)`. -/
def agent_loop_iters (outputs : Nat → Str) (max_retries : Nat) : Nat :=
  (agent_loop_go outputs 0 max_retries).1

/-- The `if iteration >= max_retries` check after the loop, which prints the
"Maximum retries exceeded" exhaustion diagnostic. -/
def agent_loop_exhausted (outputs : Nat → Str) (max_retries : Nat) : Bool :=
  decide (agent_loop_iters outputs max_retries ≥ max_retries)

theorem agent_loop_go_fst_le (outputs : Nat → Str) :
    ∀ (fuel iteration : Nat), (agent_loop_go outputs iteration fuel).1 ≤ iteration + fuel := by
  intro fuel
  induction fuel with
  | zero => intro iteration; simp [agent_loop_go]
  | succ n ih =>
    intro iteration
    simp only [agent_loop_go]
    split
    · show iteration + 1 ≤ iteration + (n + 1)
      omega
    · calc (agent_loop_go outputs (iteration + 1) n).1 ≤ iteration + 1 + n := ih (iteration + 1)
        _ = iteration + (n + 1) := by omega

theorem agent_loop_go_all_fail (outputs : Nat → Str)
    (hfail : ∀ i, build_succeeded (outputs i) = false) :
    ∀ (fuel iteration : Nat), agent_loop_go outputs iteration fuel = (iteration + fuel, false) := by
  intro fuel
  induction fuel with
  | zero => intro iteration; simp [agent_loop_go]
  | succ n ih =>
    intro iteration
    simp only [agent_loop_go, hfail (iteration + 1), Bool.false_eq_true, if_false]
    rw [ih (iteration + 1)]
    congr 1
    omega

end FedAgent

/-- C7: the orchestrator loop of `federation_agent.agent_loop` never begins
an (N+1)-th iteration (the final iteration counter is at most the configured
`max_retries` budget for every build behaviour), and when the build fails on
every run the loop executes exactly N iterations and terminates with the
maximum-retries-exceeded (Exhausted) diagnostic. -/
theorem c7_iteration_budget :
    (∀ (outputs : Nat → Str) (max_retries : Nat),
        FedAgent.agent_loop_iters outputs max_retries ≤ max_retries) ∧
    (∀ (outputs : Nat → Str) (max_retries : Nat),
        (∀ i, FedAgent.build_succeeded (outputs i) = false) →
        FedAgent.agent_loop_iters outputs max_retries = max_retries ∧
        FedAgent.agent_loop_exhausted outputs max_retries = true) := by
  constructor
  · intro outputs max_retries
    have h := FedAgent.agent_loop_go_fst_le outputs max_retries 0
    simpa [FedAgent.agent_loop_iters] using h
  · intro outputs max_retries hfail
    have h := FedAgent.agent_loop_go_all_fail outputs hfail max_retries 0
    have hiters : FedAgent.agent_loop_iters outputs max_retries = max_retries := by
      simp [FedAgent.agent_loop_iters, h]
    exact ⟨hiters, by simp [FedAgent.agent_loop_exhausted, hiters]⟩

/-- A build-output oracle that fails identically on every iteration. -/
def FedAgent.failOut : Nat → Str := fun _ => "error: undefined reference".toList

/-- Witness for C7: a build that always emits an error line with
`max_retries = 10` runs exactly 10 iterations and reports exhaustion. -/
theorem c7_iteration_budget_witness :
    FedAgent.agent_loop_iters FedAgent.failOut 10 = 10 ∧
    FedAgent.agent_loop_exhausted FedAgent.failOut 10 = true :=
  c7_iteration_budget.2 FedAgent.failOut 10 (fun _ => rfl)
